import Mathlib

/-!
Verification development for the gulp-awslambda-deploy plugin
(src/index.ts, compiled dist/index.js, dist/index.d.ts).

The plugin's `main(params, options)` validates its two arguments and
returns a stream whose `flush` runs a linear promise chain of AWS SDK
calls: optional `s3.putObject`, `listFunctions` (existence check), then
either `updateFunctionCode` / `waitFor('functionUpdated')` /
`updateFunctionConfiguration` or `createFunction`, then an optional alias
upsert (`getAlias` then `createAlias` or `updateAlias`), finally pushing
the buffered file downstream.

We embed the plugin shallowly: JavaScript values that may be `undefined`
become `Option`; JavaScript truthiness is modelled explicitly (empty
string, `0`, `false` and `undefined` are falsy); each vendor API call is
recorded in a trace, and the responses the vendor would give are an
explicit `AwsWorld` of `Except` values, so a rejected promise is an
`Except.error` carrying the error message.
-/

/-- A `subnets` / `securityGroups` value: the TypeScript type admits a
bare string or an array of strings. -/
inductive StrOrList where
  | str (s : String)
  | arr (l : List String)
deriving DecidableEq

/-- The `params.s3` object: `{ bucket, key }`, each possibly missing. -/
structure S3Opt where
  bucket : Option String
  key : Option String
deriving DecidableEq

/-- A buffered vinyl file: only `path` and `contents` are consulted. -/
structure VFile where
  path : String
  contents : String
deriving DecidableEq

/-- The flat `AWSLambdaDeployParams` object (dist/index.d.ts), with
`file` as stored by the stream's transform step; `aliasName` embeds the
source's `alias` field, whose name is reserved in Lean. -/
structure Params where
  functionName : Option String
  role : Option String
  s3 : Option S3Opt
  aliasName : Option String
  publish : Option Bool
  file : Option VFile
  handler : Option String
  runtime : Option String
  memory : Option Nat
  description : Option String
  timeout : Option Nat
  subnets : Option StrOrList
  securityGroups : Option StrOrList
deriving DecidableEq

/-- The `AWSLambdaDeployOptions` object: `{ region, profile }`. -/
structure AwsOptions where
  region : Option String
  profile : Option String
deriving DecidableEq

/-- JavaScript truthiness of a possibly-undefined string:
`undefined` and `""` are falsy. -/
def truthyS : Option String → Bool
  | none => false
  | some s => !s.isEmpty

/-- JavaScript truthiness of a possibly-undefined boolean. -/
def truthyB : Option Bool → Bool
  | none => false
  | some b => b

/-- JavaScript truthiness of a possibly-undefined number (`0` is falsy). -/
def truthyN : Option Nat → Bool
  | none => false
  | some n => n != 0

/-- JavaScript truthiness of a `subnets` / `securityGroups` value:
an array is always truthy, a string is truthy when non-empty. -/
def truthySL : Option StrOrList → Bool
  | none => false
  | some (.str s) => !s.isEmpty
  | some (.arr _) => true

/-- JavaScript `a || d` for a possibly-undefined string `a` with string
default `d` (used for `params.handler || DEFAULT_PARAMS.handler`). -/
def jsOrS (o : Option String) (d : String) : String :=
  match o with
  | none => d
  | some s => if s.isEmpty then d else s

/-- The expression `typeof x === 'string' ? [x] : x` wrapping a bare
string into a one-element array (applied only under a truthiness guard,
so the `none` branch is never reached by the program). -/
def toStrList : Option StrOrList → List String
  | some (.str s) => [s]
  | some (.arr l) => l
  | none => []

/-- JavaScript `s.slice(-n)`: the last `n` characters of `s`, or all of
`s` when it is shorter than `n`. -/
def jsSliceLast (n : Nat) (s : String) : String :=
  ⟨s.data.drop (s.data.length - n)⟩

/-- The `main` entry point's synchronous argument validation
(the name `main` itself is reserved in Lean)
(src/index.ts lines 133-148): `Except.error msg` models a thrown
`PluginError` with that message, `Except.ok ()` models returning the
stream. -/
def mainEntry (params : Option Params) (options : Option AwsOptions) : Except String Unit :=
  match params with
  | none => .error "No parameters provided"
  | some p =>
    if !truthyS p.functionName then .error "No Lambda function name provided"
    else if !truthyS p.role then .error "No Lambda role provided"
    else
      match options with
      | none => .error "No AWS options provided"
      | some o =>
        if !truthyS o.region then .error "No AWS region provided"
        else if !truthyS o.profile then .error "No AWS profile provided"
        else
          match p.s3 with
          | some s =>
            if !truthyS s.bucket then .error "If uploading via S3, a bucket must be provided"
            else if !truthyS s.key then .error "If uploading via S3, a key must be provided"
            else if truthyS p.aliasName && !truthyB p.publish then
              .error "An alias was provided but \x27publish\x27 was \x27false\x27."
            else .ok ()
          | none =>
            if truthyS p.aliasName && !truthyB p.publish then
              .error "An alias was provided but \x27publish\x27 was \x27false\x27."
            else .ok ()

/-- One entry of the `listFunctions` response (`res.Functions`). -/
structure FnEntry where
  FunctionName : Option String
deriving DecidableEq

/-- The value a resolved `updateFunctionConfiguration` / `createFunction`
call yields; only its `Version` field is consulted (for the alias). -/
structure FnConfigResp where
  Version : Option String
deriving DecidableEq

/-- The value a resolved `getAlias` call yields; the code only tests its
truthiness. -/
structure AliasConfigResp where
  Name : Option String
deriving DecidableEq

/-- The request record built by `s3upload`. -/
structure PutObjectRequest where
  Bucket : Option String
  Key : Option String
  Body : String
deriving DecidableEq

/-- The request record built by `updateFunctionCode`. -/
structure UpdateFunctionCodeRequest where
  FunctionName : Option String
  Publish : Option Bool
  S3Bucket : Option String
  S3Key : Option String
  ZipFile : Option String
deriving DecidableEq

/-- The `VpcConfig` sub-record. -/
structure VpcConfigReq where
  SubnetIds : List String
  SecurityGroupIds : List String
deriving DecidableEq

/-- The request record built by `updateFunctionConfiguration`. -/
structure UpdateFunctionConfigurationRequest where
  FunctionName : Option String
  Role : Option String
  Handler : String
  Runtime : String
  MemorySize : Option Nat
  Description : Option String
  Timeout : Option Nat
  VpcConfig : Option VpcConfigReq
deriving DecidableEq

/-- The `Code` sub-record of a `createFunction` request. -/
structure FunctionCode where
  S3Bucket : Option String
  S3Key : Option String
  ZipFile : Option String
deriving DecidableEq

/-- The request record built by `createFunction`. -/
structure CreateFunctionRequest where
  Code : FunctionCode
  FunctionName : Option String
  Handler : String
  Runtime : String
  Role : Option String
  Publish : Option Bool
  MemorySize : Option Nat
  Description : Option String
  Timeout : Option Nat
  VpcConfig : Option VpcConfigReq
deriving DecidableEq

/-- The request record built by `getAlias`. -/
structure GetAliasRequest where
  FunctionName : Option String
  Name : Option String
deriving DecidableEq

/-- The request record built by `createAlias` and `updateAlias`. -/
structure AliasRequest where
  FunctionName : Option String
  FunctionVersion : Option String
  Name : Option String
deriving DecidableEq

/-- One vendor API call as issued by the plugin, with its request. -/
inductive ApiCall where
  | putObject (req : PutObjectRequest)
  | listFunctions
  | updateFunctionCode (req : UpdateFunctionCodeRequest)
  | waitForFunctionUpdated (functionName : Option String)
  | updateFunctionConfiguration (req : UpdateFunctionConfigurationRequest)
  | createFunction (req : CreateFunctionRequest)
  | getAlias (req : GetAliasRequest)
  | createAlias (req : AliasRequest)
  | updateAlias (req : AliasRequest)
deriving DecidableEq

/-- The kind of a vendor API operation, forgetting the request. -/
inductive OpKind where
  | putObject
  | listFunctions
  | updateFunctionCode
  | waitForFunctionUpdated
  | updateFunctionConfiguration
  | createFunction
  | getAlias
  | createAlias
  | updateAlias
deriving DecidableEq

/-- The kind of an issued call. -/
def kindOf : ApiCall → OpKind
  | .putObject _ => .putObject
  | .listFunctions => .listFunctions
  | .updateFunctionCode _ => .updateFunctionCode
  | .waitForFunctionUpdated _ => .waitForFunctionUpdated
  | .updateFunctionConfiguration _ => .updateFunctionConfiguration
  | .createFunction _ => .createFunction
  | .getAlias _ => .getAlias
  | .createAlias _ => .createAlias
  | .updateAlias _ => .updateAlias

/-- How many calls of kind `k` a trace contains. -/
def countKind (k : OpKind) (t : List ApiCall) : Nat :=
  (t.map kindOf).count k

/-- Equality of `Except` values is decidable when it is on both sides. -/
instance exceptDecEq {ε α : Type} [DecidableEq ε] [DecidableEq α] :
    DecidableEq (Except ε α) := fun a b =>
  match a, b with
  | .ok x, .ok y =>
    if h : x = y then isTrue (by rw [h]) else
      isFalse (fun hh => h (by cases hh; rfl))
  | .error e, .error e2 =>
    if h : e = e2 then isTrue (by rw [h]) else
      isFalse (fun hh => h (by cases hh; rfl))
  | .ok _, .error _ => isFalse (fun hh => by cases hh)
  | .error _, .ok _ => isFalse (fun hh => by cases hh)

/-- The vendor's response to each operation: `Except.error msg` models a
rejected promise. One world fixes one flush run's environment. -/
structure AwsWorld where
  putObjectRes : Except String Unit
  listFunctionsRes : Except String (List FnEntry)
  updateFunctionCodeRes : Except String FnConfigResp
  waitForRes : Except String Unit
  updateFunctionConfigurationRes : Except String FnConfigResp
  createFunctionRes : Except String FnConfigResp
  getAliasRes : Except String (Option AliasConfigResp)
  createAliasRes : Except String Unit
  updateAliasRes : Except String Unit
deriving DecidableEq

/-- Whether the world resolves (rather than rejects) operation kind `k`. -/
def respOk (w : AwsWorld) : OpKind → Bool
  | .putObject => w.putObjectRes.isOk
  | .listFunctions => w.listFunctionsRes.isOk
  | .updateFunctionCode => w.updateFunctionCodeRes.isOk
  | .waitForFunctionUpdated => w.waitForRes.isOk
  | .updateFunctionConfiguration => w.updateFunctionConfigurationRes.isOk
  | .createFunction => w.createFunctionRes.isOk
  | .getAlias => w.getAliasRes.isOk
  | .createAlias => w.createAliasRes.isOk
  | .updateAlias => w.updateAliasRes.isOk

/-- The pure scan inside `hasLambdaFunction`: the loop over
`res.Functions` comparing each `FunctionName` to the target with `===`. -/
def hasLambdaFunction (functions : List FnEntry) (targetFunction : Option String) : Bool :=
  functions.any (fun f => f.FunctionName == targetFunction)

/-- The `s3params` record built by `s3upload`. -/
def s3uploadReq (s : S3Opt) (f : VFile) : PutObjectRequest :=
  { Bucket := s.bucket, Key := s.key, Body := f.contents }

/-- The `lamparams` record built by `updateFunctionCode`: `Publish` from
`params.publish`; code by S3 location when `params.s3` is given, inline
`ZipFile` otherwise. -/
def updateFunctionCodeReq (p : Params) (f : VFile) : UpdateFunctionCodeRequest :=
  { FunctionName := p.functionName
    Publish := p.publish
    S3Bucket := match p.s3 with | some s => s.bucket | none => none
    S3Key := match p.s3 with | some s => s.key | none => none
    ZipFile := match p.s3 with | some _ => none | none => some f.contents }

/-- The `VpcConfig` assignment shared verbatim by
`updateFunctionConfiguration` and `createFunction`: present exactly when
both `params.subnets` and `params.securityGroups` are truthy, wrapping a
bare string into a one-element array. -/
def mkVpcConfig (p : Params) : Option VpcConfigReq :=
  if truthySL p.subnets && truthySL p.securityGroups then
    some { SubnetIds := toStrList p.subnets, SecurityGroupIds := toStrList p.securityGroups }
  else none

/-- The `lamparams` record built by `updateFunctionConfiguration`:
no `Publish` field; optional fields under their truthiness guards. -/
def updateFunctionConfigurationReq (p : Params) : UpdateFunctionConfigurationRequest :=
  { FunctionName := p.functionName
    Role := p.role
    Handler := jsOrS p.handler "index.handler"
    Runtime := jsOrS p.runtime "nodejs14.x"
    MemorySize := if truthyN p.memory then p.memory else none
    Description := if truthyS p.description then p.description else none
    Timeout := if truthyN p.timeout then p.timeout else none
    VpcConfig := mkVpcConfig p }

/-- The `lamparams` record built by `createFunction`. -/
def createFunctionReq (p : Params) (f : VFile) : CreateFunctionRequest :=
  { Code := { S3Bucket := match p.s3 with | some s => s.bucket | none => none
              S3Key := match p.s3 with | some s => s.key | none => none
              ZipFile := match p.s3 with | some _ => none | none => some f.contents }
    FunctionName := p.functionName
    Handler := jsOrS p.handler "index.handler"
    Runtime := jsOrS p.runtime "nodejs14.x"
    Role := p.role
    Publish := p.publish
    MemorySize := if truthyN p.memory then p.memory else none
    Description := if truthyS p.description then p.description else none
    Timeout := if truthyN p.timeout then p.timeout else none
    VpcConfig := mkVpcConfig p }

/-- The `getAlias` request. -/
def getAliasReq (p : Params) : GetAliasRequest :=
  { FunctionName := p.functionName, Name := p.aliasName }

/-- The `createAlias` / `updateAlias` request for `version`. -/
def aliasReq (p : Params) (version : Option String) : AliasRequest :=
  { FunctionName := p.functionName, FunctionVersion := version, Name := p.aliasName }

/-- The `upsertAlias` tail of the chain (run when `params.alias` is
truthy): `getAlias`, then `createAlias` when its value is falsy,
`updateAlias` otherwise; `version` is `upsertedFunction.Version`.
Returns the issued calls and the chain's outcome. -/
def aliasChain (p : Params) (version : Option String) (w : AwsWorld) :
    List ApiCall × Except String Unit :=
  if truthyS p.aliasName then
    match w.getAliasRes with
    | .error e => ([.getAlias (getAliasReq p)], .error e)
    | .ok none =>
      match w.createAliasRes with
      | .error e => ([.getAlias (getAliasReq p), .createAlias (aliasReq p version)], .error e)
      | .ok _ => ([.getAlias (getAliasReq p), .createAlias (aliasReq p version)], .ok ())
    | .ok (some _) =>
      match w.updateAliasRes with
      | .error e => ([.getAlias (getAliasReq p), .updateAlias (aliasReq p version)], .error e)
      | .ok _ => ([.getAlias (getAliasReq p), .updateAlias (aliasReq p version)], .ok ())
  else ([], .ok ())

/-- The update branch taken when the function exists:
`updateFunctionCode`, then `waitFor('functionUpdated')`, then
`updateFunctionConfiguration`, then the alias tail on the configuration
response's `Version`. -/
def updatePath (p : Params) (f : VFile) (w : AwsWorld) :
    List ApiCall × Except String Unit :=
  match w.updateFunctionCodeRes with
  | .error e => ([.updateFunctionCode (updateFunctionCodeReq p f)], .error e)
  | .ok _ =>
    match w.waitForRes with
    | .error e =>
      ([.updateFunctionCode (updateFunctionCodeReq p f),
        .waitForFunctionUpdated p.functionName], .error e)
    | .ok _ =>
      match w.updateFunctionConfigurationRes with
      | .error e =>
        ([.updateFunctionCode (updateFunctionCodeReq p f),
          .waitForFunctionUpdated p.functionName,
          .updateFunctionConfiguration (updateFunctionConfigurationReq p)], .error e)
      | .ok cfg =>
        ([.updateFunctionCode (updateFunctionCodeReq p f),
          .waitForFunctionUpdated p.functionName,
          .updateFunctionConfiguration (updateFunctionConfigurationReq p)]
           ++ (aliasChain p cfg.Version w).1,
         (aliasChain p cfg.Version w).2)

/-- The create branch taken when the function does not exist:
`createFunction`, then the alias tail on its response's `Version`. -/
def createPath (p : Params) (f : VFile) (w : AwsWorld) :
    List ApiCall × Except String Unit :=
  match w.createFunctionRes with
  | .error e => ([.createFunction (createFunctionReq p f)], .error e)
  | .ok cfg =>
    (.createFunction (createFunctionReq p f) :: (aliasChain p cfg.Version w).1,
     (aliasChain p cfg.Version w).2)

/-- The promise chain of `flush` from the existence check on:
`listFunctions`, then the update or create branch by
`hasLambdaFunction`. -/
def checkPath (p : Params) (f : VFile) (w : AwsWorld) :
    List ApiCall × Except String Unit :=
  match w.listFunctionsRes with
  | .error e => ([.listFunctions], .error e)
  | .ok fns =>
    if hasLambdaFunction fns p.functionName then
      (.listFunctions :: (updatePath p f w).1, (updatePath p f w).2)
    else
      (.listFunctions :: (createPath p f w).1, (createPath p f w).2)

/-- The whole promise chain of `flush`: the optional `s3upload`
(`putObject`) first, then `checkPath`. -/
def deployChain (p : Params) (f : VFile) (w : AwsWorld) :
    List ApiCall × Except String Unit :=
  match p.s3 with
  | none => checkPath p f w
  | some s =>
    match w.putObjectRes with
    | .error e => ([.putObject (s3uploadReq s f)], .error e)
    | .ok _ =>
      (.putObject (s3uploadReq s f) :: (checkPath p f w).1, (checkPath p f w).2)

/-- Outcome of one flush run: the issued calls in order, the value the
stream callback receives (`Except.error msg` models `cb(gulpError(msg))`),
and how many times the buffered file was pushed downstream. -/
structure FlushOutcome where
  trace : List ApiCall
  result : Except String Unit
  pushes : Nat
deriving DecidableEq

/-- One run of `flush`: the two input guards, then the promise chain;
`done()` pushes the file and resolves, `done(err)` forwards the failing
step's message. -/
def flushRun (p : Params) (w : AwsWorld) : FlushOutcome :=
  match p.file with
  | none => { trace := [], result := .error "No code provided", pushes := 0 }
  | some f =>
    if jsSliceLast 4 f.path ≠ ".zip" then
      { trace := [], result := .error "Given file is not a zip", pushes := 0 }
    else
      match deployChain p f w with
      | (t, .ok _) => { trace := t, result := .ok (), pushes := 1 }
      | (t, .error e) => { trace := t, result := .error e, pushes := 0 }

/-- The throw condition of `main` as the code implements it, by
JavaScript truthiness: a required field that is absent or falsy (an empty
string, or for `publish` also `false`/`undefined`) triggers the
corresponding throw. -/
def mainThrowCond (params : Option Params) (options : Option AwsOptions) : Bool :=
  match params, options with
  | none, _ => true
  | _, none => true
  | some p, some o =>
    !truthyS p.functionName || !truthyS p.role || !truthyS o.region || !truthyS o.profile ||
    (match p.s3 with | some s => !truthyS s.bucket || !truthyS s.key | none => false) ||
    (truthyS p.aliasName && !truthyB p.publish)

/-- The throw condition exactly as claim C8 words it: required fields
throw when *absent*, `params.s3` present without `bucket` or without
`key`, and `params.alias` *set* while `params.publish` is falsy. -/
def claimC8cond (params : Option Params) (options : Option AwsOptions) : Bool :=
  match params, options with
  | none, _ => true
  | _, none => true
  | some p, some o =>
    p.functionName.isNone || p.role.isNone || o.region.isNone || o.profile.isNone ||
    (match p.s3 with | some s => s.bucket.isNone || s.key.isNone | none => false) ||
    (!p.aliasName.isNone && !truthyB p.publish)

/-- Well-formed outcome of a chain fragment against world `w`: if it
resolved, every issued call's response is ok; if it rejected with `e`,
some call was issued, every issued call before the last one has an ok
response, and the rejection stopped the fragment there. -/
def chainWf (w : AwsWorld) (pr : List ApiCall × Except String Unit) : Prop :=
  (pr.2 = Except.ok () → ∀ c ∈ pr.1, respOk w (kindOf c) = true) ∧
  (∀ e, pr.2 = Except.error e → pr.1 ≠ [] ∧ ∀ c ∈ pr.1.dropLast, respOk w (kindOf c) = true)

/-- The fixed order in which the nine operation kinds can ever appear in
one flush run's trace. -/
def kindOrder : List OpKind :=
  [.putObject, .listFunctions, .updateFunctionCode, .waitForFunctionUpdated,
   .updateFunctionConfiguration, .createFunction, .getAlias, .createAlias, .updateAlias]

/-- The `Publish` flag a call carries, when its request has that field. -/
def publishOf : ApiCall → Option (Option Bool)
  | .updateFunctionCode r => some r.Publish
  | .createFunction r => some r.Publish
  | _ => none

/-- A sample buffered zip file. -/
def sampleFile : VFile := { path := "index.zip", contents := "zipbytes" }

/-- A sample world in which every operation resolves, the listing
contains `fn`, and `getAlias` yields no existing alias. -/
def sampleWorld : AwsWorld :=
  { putObjectRes := .ok ()
    listFunctionsRes := .ok [{ FunctionName := some "fn" }, { FunctionName := some "other" }]
    updateFunctionCodeRes := .ok { Version := some "7" }
    waitForRes := .ok ()
    updateFunctionConfigurationRes := .ok { Version := some "8" }
    createFunctionRes := .ok { Version := some "1" }
    getAliasRes := .ok none
    createAliasRes := .ok ()
    updateAliasRes := .ok () }

/-- A sample world whose listing does not contain `fn` (create branch)
and whose `getAlias` yields an existing alias. -/
def sampleWorldMiss : AwsWorld :=
  { sampleWorld with
    listFunctionsRes := .ok [{ FunctionName := some "other" }]
    getAliasRes := .ok (some { Name := some "prod" }) }

/-- A sample world in which `updateFunctionCode` rejects. -/
def sampleWorldErr : AwsWorld :=
  { sampleWorld with updateFunctionCodeRes := .error "boom" }

/-- Sample parameters: deploy `fn` via S3, publishing and aliasing. -/
def sampleParams : Params :=
  { functionName := some "fn"
    role := some "arn:aws:iam::1:role/r"
    s3 := some { bucket := some "bkt", key := some "k" }
    aliasName := some "prod"
    publish := some true
    file := some sampleFile
    handler := none
    runtime := none
    memory := some 128
    description := none
    timeout := none
    subnets := some (.str "sub-1")
    securityGroups := some (.arr ["sg-1", "sg-2"]) }

/-- Sample parameters: direct upload, no alias, no VPC. -/
def sampleParamsDirect : Params :=
  { sampleParams with
    s3 := none
    aliasName := none
    publish := none
    subnets := none }

/-- Sample options. -/
def sampleOptions : AwsOptions := { region := some "us-east-1", profile := some "dev" }

/-- Parameters whose `functionName` is present but empty: `main` throws
on them although no field is absent. -/
def emptyNameParams : Params := { sampleParamsDirect with functionName := some "" }

/-- Parameters with no buffered file. -/
def noFileParams : Params := { sampleParamsDirect with file := none }

/-- Parameters whose buffered file is not a zip. -/
def badFileParams : Params :=
  { sampleParamsDirect with file := some { path := "index.txt", contents := "zipbytes" } }

theorem aliasChain_shape (p : Params) (v : Option String) (w : AwsWorld) :
    (aliasChain p v w).1 = [] ∨
    (aliasChain p v w).1 = [.getAlias (getAliasReq p)] ∨
    (aliasChain p v w).1 = [.getAlias (getAliasReq p), .createAlias (aliasReq p v)] ∨
    (aliasChain p v w).1 = [.getAlias (getAliasReq p), .updateAlias (aliasReq p v)] := by
  by_cases ha : truthyS p.aliasName = true
  · rcases hg : w.getAliasRes with e | a
    · simp [aliasChain, ha, hg]
    · rcases a with _ | av
      · rcases hc : w.createAliasRes with e | u <;> simp [aliasChain, ha, hg, hc]
      · rcases hu : w.updateAliasRes with e | u <;> simp [aliasChain, ha, hg, hu]
  · simp [aliasChain, ha]

theorem aliasChain_kinds (p : Params) (v : Option String) (w : AwsWorld) :
    List.Sublist ((aliasChain p v w).1.map kindOf)
      [OpKind.getAlias, OpKind.createAlias, OpKind.updateAlias] := by
  rcases aliasChain_shape p v w with h | h | h | h <;> rw [h] <;> simp [kindOf]

theorem aliasChain_wf (p : Params) (v : Option String) (w : AwsWorld) :
    chainWf w (aliasChain p v w) := by
  unfold chainWf
  by_cases ha : truthyS p.aliasName = true
  · rcases hg : w.getAliasRes with e | a
    · simp [aliasChain, ha, hg]
    · rcases a with _ | av
      · rcases hc : w.createAliasRes with e | u <;>
          simp [aliasChain, ha, hg, hc, respOk, kindOf, Except.isOk, Except.toBool]
      · rcases hu : w.updateAliasRes with e | u <;>
          simp [aliasChain, ha, hg, hu, respOk, kindOf, Except.isOk, Except.toBool]
  · simp [aliasChain, ha]

theorem aliasChain_mem (p : Params) (v : Option String) (w : AwsWorld) (c : ApiCall)
    (hc : c ∈ (aliasChain p v w).1) :
    c = .getAlias (getAliasReq p) ∨ c = .createAlias (aliasReq p v) ∨
    c = .updateAlias (aliasReq p v) := by
  rcases aliasChain_shape p v w with h | h | h | h <;> rw [h] at hc <;> simp at hc <;> tauto

theorem updatePath_kinds (p : Params) (f : VFile) (w : AwsWorld) :
    List.Sublist ((updatePath p f w).1.map kindOf)
      [OpKind.updateFunctionCode, OpKind.waitForFunctionUpdated,
       OpKind.updateFunctionConfiguration, OpKind.getAlias, OpKind.createAlias,
       OpKind.updateAlias] := by
  unfold updatePath
  rcases h1 : w.updateFunctionCodeRes with e | c1
  · simp [kindOf]
  rcases h2 : w.waitForRes with e | u
  · simp [kindOf]
  rcases h3 : w.updateFunctionConfigurationRes with e | cfg
  · simp [kindOf]
  · simp only [List.map_append, List.map_cons, List.map_nil, kindOf]
    exact List.Sublist.append (List.Sublist.refl _) (aliasChain_kinds p cfg.Version w)

theorem updatePath_wf (p : Params) (f : VFile) (w : AwsWorld) :
    chainWf w (updatePath p f w) := by
  rcases h1 : w.updateFunctionCodeRes with e | c1
  · simp [chainWf, updatePath, respOk, h1]
  rcases h2 : w.waitForRes with e | u
  · simp [chainWf, updatePath, respOk, kindOf, h1, h2, Except.isOk, Except.toBool]
  rcases h3 : w.updateFunctionConfigurationRes with e | cfg
  · simp [chainWf, updatePath, respOk, kindOf, h1, h2, h3, Except.isOk, Except.toBool]
  · have hA := aliasChain_wf p cfg.Version w
    simp only [updatePath, h1, h2, h3, chainWf]
    constructor
    · intro hok c hc
      simp only [List.cons_append, List.nil_append, List.mem_cons, List.mem_append] at hc
      rcases hc with h | h | h | h
      · subst h; simp [respOk, kindOf, h1, Except.isOk, Except.toBool]
      · subst h; simp [respOk, kindOf, h2, Except.isOk, Except.toBool]
      · subst h; simp [respOk, kindOf, h3, Except.isOk, Except.toBool]
      · exact hA.1 hok c h
    · intro e he
      rcases hA.2 e he with ⟨hne, hdrop⟩
      constructor
      · simp
      · rw [List.dropLast_append_of_ne_nil _ hne]
        intro c hc
        simp only [List.cons_append, List.nil_append, List.mem_cons, List.mem_append] at hc
        rcases hc with h | h | h | h
        · subst h; simp [respOk, kindOf, h1, Except.isOk, Except.toBool]
        · subst h; simp [respOk, kindOf, h2, Except.isOk, Except.toBool]
        · subst h; simp [respOk, kindOf, h3, Except.isOk, Except.toBool]
        · exact hdrop c h

theorem updatePath_mem (p : Params) (f : VFile) (w : AwsWorld) (c : ApiCall)
    (hc : c ∈ (updatePath p f w).1) :
    c = .updateFunctionCode (updateFunctionCodeReq p f) ∨
    c = .waitForFunctionUpdated p.functionName ∨
    c = .updateFunctionConfiguration (updateFunctionConfigurationReq p) ∨
    c = .getAlias (getAliasReq p) ∨
    (∃ v, c = .createAlias (aliasReq p v) ∨ c = .updateAlias (aliasReq p v)) := by
  unfold updatePath at hc
  rcases h1 : w.updateFunctionCodeRes with e | c1 <;> rw [h1] at hc
  · simp at hc; tauto
  rcases h2 : w.waitForRes with e | u <;> rw [h2] at hc
  · simp at hc; tauto
  rcases h3 : w.updateFunctionConfigurationRes with e | cfg <;> rw [h3] at hc
  · simp at hc; tauto
  · simp only [List.mem_append, List.mem_cons, List.not_mem_nil, or_false] at hc
    rcases hc with (h | h | h) | h
    · tauto
    · tauto
    · tauto
    · rcases aliasChain_mem p cfg.Version w c h with h | h | h
      · tauto
      · exact .inr (.inr (.inr (.inr ⟨cfg.Version, .inl h⟩)))
      · exact .inr (.inr (.inr (.inr ⟨cfg.Version, .inr h⟩)))

theorem createPath_kinds (p : Params) (f : VFile) (w : AwsWorld) :
    List.Sublist ((createPath p f w).1.map kindOf)
      [OpKind.createFunction, OpKind.getAlias, OpKind.createAlias, OpKind.updateAlias] := by
  rcases h : w.createFunctionRes with e | cfg
  · simp [createPath, h, kindOf]
  · simp only [createPath, h, List.map_cons, kindOf]
    exact List.Sublist.cons₂ _ (aliasChain_kinds p cfg.Version w)

theorem createPath_wf (p : Params) (f : VFile) (w : AwsWorld) :
    chainWf w (createPath p f w) := by
  rcases h : w.createFunctionRes with e | cfg
  · simp [chainWf, createPath, respOk, h]
  · have hA := aliasChain_wf p cfg.Version w
    simp only [createPath, h, chainWf]
    constructor
    · intro hok c hc
      simp only [List.mem_cons] at hc
      rcases hc with hcc | hcc
      · subst hcc; simp [respOk, kindOf, h, Except.isOk, Except.toBool]
      · exact hA.1 hok c hcc
    · intro e he
      rcases hA.2 e he with ⟨hne, hdrop⟩
      constructor
      · simp
      · rw [show ApiCall.createFunction (createFunctionReq p f) :: (aliasChain p cfg.Version w).1
              = [ApiCall.createFunction (createFunctionReq p f)] ++ (aliasChain p cfg.Version w).1
            from rfl,
          List.dropLast_append_of_ne_nil _ hne]
        intro c hc
        simp only [List.cons_append, List.nil_append, List.mem_cons] at hc
        rcases hc with hcc | hcc
        · subst hcc; simp [respOk, kindOf, h, Except.isOk, Except.toBool]
        · exact hdrop c hcc

theorem createPath_mem (p : Params) (f : VFile) (w : AwsWorld) (c : ApiCall)
    (hc : c ∈ (createPath p f w).1) :
    c = .createFunction (createFunctionReq p f) ∨
    c = .getAlias (getAliasReq p) ∨
    (∃ v, c = .createAlias (aliasReq p v) ∨ c = .updateAlias (aliasReq p v)) := by
  unfold createPath at hc
  rcases h : w.createFunctionRes with e | cfg <;> rw [h] at hc
  · simp at hc; tauto
  · simp only [List.mem_cons] at hc
    rcases hc with hcc | hcc
    · tauto
    · rcases aliasChain_mem p cfg.Version w c hcc with hm | hm | hm
      · tauto
      · exact .inr (.inr ⟨cfg.Version, .inl hm⟩)
      · exact .inr (.inr ⟨cfg.Version, .inr hm⟩)

theorem checkPath_kinds (p : Params) (f : VFile) (w : AwsWorld) :
    List.Sublist ((checkPath p f w).1.map kindOf)
      [OpKind.listFunctions, OpKind.updateFunctionCode, OpKind.waitForFunctionUpdated,
       OpKind.updateFunctionConfiguration, OpKind.createFunction, OpKind.getAlias,
       OpKind.createAlias, OpKind.updateAlias] := by
  rcases hl : w.listFunctionsRes with e | fns
  · simp [checkPath, hl, kindOf]
  by_cases hh : hasLambdaFunction fns p.functionName = true
  · simp only [checkPath, hl, hh, if_true, List.map_cons, kindOf]
    refine List.Sublist.cons₂ _ ((updatePath_kinds p f w).trans ?_)
    decide
  · simp only [checkPath, hl, hh, if_false, Bool.false_eq_true, List.map_cons, kindOf]
    refine List.Sublist.cons₂ _ ((createPath_kinds p f w).trans ?_)
    decide

theorem chainWf_cons (w : AwsWorld) (c : ApiCall) (pr : List ApiCall × Except String Unit)
    (hc : respOk w (kindOf c) = true) (h : chainWf w pr) :
    chainWf w (c :: pr.1, pr.2) := by
  constructor
  · intro hok x hx
    rcases List.mem_cons.mp hx with h1 | h1
    · subst h1; exact hc
    · exact h.1 hok x h1
  · intro e he
    rcases h.2 e he with ⟨hne, hdrop⟩
    refine ⟨by simp, ?_⟩
    rw [show c :: pr.1 = [c] ++ pr.1 from rfl, List.dropLast_append_of_ne_nil _ hne]
    intro x hx
    rcases List.mem_cons.mp (by simpa using hx) with h1 | h1
    · subst h1; exact hc
    · exact hdrop x h1

theorem checkPath_wf (p : Params) (f : VFile) (w : AwsWorld) :
    chainWf w (checkPath p f w) := by
  rcases hl : w.listFunctionsRes with e | fns
  · simp [chainWf, checkPath, respOk, hl]
  by_cases hh : hasLambdaFunction fns p.functionName = true
  · simp only [checkPath, hl, hh, if_true]
    exact chainWf_cons w _ _ (by simp [respOk, kindOf, hl, Except.isOk, Except.toBool])
      (updatePath_wf p f w)
  · simp only [checkPath, hl, hh, if_false]
    exact chainWf_cons w _ _ (by simp [respOk, kindOf, hl, Except.isOk, Except.toBool])
      (createPath_wf p f w)

theorem checkPath_mem (p : Params) (f : VFile) (w : AwsWorld) (c : ApiCall)
    (hc : c ∈ (checkPath p f w).1) :
    c = .listFunctions ∨
    c = .updateFunctionCode (updateFunctionCodeReq p f) ∨
    c = .waitForFunctionUpdated p.functionName ∨
    c = .updateFunctionConfiguration (updateFunctionConfigurationReq p) ∨
    c = .createFunction (createFunctionReq p f) ∨
    c = .getAlias (getAliasReq p) ∨
    (∃ v, c = .createAlias (aliasReq p v) ∨ c = .updateAlias (aliasReq p v)) := by
  rcases hl : w.listFunctionsRes with e | fns <;> simp only [checkPath, hl] at hc
  · simp at hc; tauto
  by_cases hh : hasLambdaFunction fns p.functionName = true
  · rw [if_pos hh] at hc
    rcases List.mem_cons.mp hc with hcc | hcc
    · exact Or.inl hcc
    · rcases updatePath_mem p f w c hcc with h | h | h | h | ⟨v, h⟩
      · exact .inr (.inl h)
      · exact .inr (.inr (.inl h))
      · exact .inr (.inr (.inr (.inl h)))
      · exact .inr (.inr (.inr (.inr (.inr (.inl h)))))
      · exact .inr (.inr (.inr (.inr (.inr (.inr ⟨v, h⟩)))))
  · rw [if_neg hh] at hc
    rcases List.mem_cons.mp hc with hcc | hcc
    · exact Or.inl hcc
    · rcases createPath_mem p f w c hcc with h | h | ⟨v, h⟩
      · exact .inr (.inr (.inr (.inr (.inl h))))
      · exact .inr (.inr (.inr (.inr (.inr (.inl h)))))
      · exact .inr (.inr (.inr (.inr (.inr (.inr ⟨v, h⟩)))))

theorem deployChain_kinds (p : Params) (f : VFile) (w : AwsWorld) :
    List.Sublist ((deployChain p f w).1.map kindOf) kindOrder := by
  have hcheck := checkPath_kinds p f w
  rcases hs : p.s3 with _ | s
  · simp only [deployChain, hs]
    exact hcheck.trans (by decide)
  rcases hp : w.putObjectRes with e | u
  · simp [deployChain, hs, hp, kindOf, kindOrder]
  · simp only [deployChain, hs, hp, List.map_cons, kindOf, kindOrder]
    exact List.Sublist.cons₂ _ hcheck

theorem deployChain_wf (p : Params) (f : VFile) (w : AwsWorld) :
    chainWf w (deployChain p f w) := by
  rcases hs : p.s3 with _ | s
  · simp only [deployChain, hs]
    exact checkPath_wf p f w
  rcases hp : w.putObjectRes with e | u
  · simp [chainWf, deployChain, hs, hp, respOk]
  · simp only [deployChain, hs, hp]
    exact chainWf_cons w _ _ (by simp [respOk, kindOf, hp, Except.isOk, Except.toBool])
      (checkPath_wf p f w)

theorem deployChain_mem (p : Params) (f : VFile) (w : AwsWorld) (c : ApiCall)
    (hc : c ∈ (deployChain p f w).1) :
    (∃ s, p.s3 = some s ∧ c = .putObject (s3uploadReq s f)) ∨
    c = .listFunctions ∨
    c = .updateFunctionCode (updateFunctionCodeReq p f) ∨
    c = .waitForFunctionUpdated p.functionName ∨
    c = .updateFunctionConfiguration (updateFunctionConfigurationReq p) ∨
    c = .createFunction (createFunctionReq p f) ∨
    c = .getAlias (getAliasReq p) ∨
    (∃ v, c = .createAlias (aliasReq p v) ∨ c = .updateAlias (aliasReq p v)) := by
  rcases hs : p.s3 with _ | s <;> simp only [deployChain, hs] at hc
  · rcases checkPath_mem p f w c hc with h | h | h | h | h | h | ⟨v, h⟩
    · exact .inr (.inl h)
    · exact .inr (.inr (.inl h))
    · exact .inr (.inr (.inr (.inl h)))
    · exact .inr (.inr (.inr (.inr (.inl h))))
    · exact .inr (.inr (.inr (.inr (.inr (.inl h)))))
    · exact .inr (.inr (.inr (.inr (.inr (.inr (.inl h))))))
    · exact .inr (.inr (.inr (.inr (.inr (.inr (.inr ⟨v, h⟩))))))
  rcases hp : w.putObjectRes with e | u <;> simp only [hp] at hc
  · simp at hc
    exact Or.inl ⟨s, rfl, hc⟩
  · rcases List.mem_cons.mp hc with hcc | hcc
    · exact Or.inl ⟨s, rfl, hcc⟩
    · rcases checkPath_mem p f w c hcc with h | h | h | h | h | h | ⟨v, h⟩
      · exact .inr (.inl h)
      · exact .inr (.inr (.inl h))
      · exact .inr (.inr (.inr (.inl h)))
      · exact .inr (.inr (.inr (.inr (.inl h))))
      · exact .inr (.inr (.inr (.inr (.inr (.inl h)))))
      · exact .inr (.inr (.inr (.inr (.inr (.inr (.inl h))))))
      · exact .inr (.inr (.inr (.inr (.inr (.inr (.inr ⟨v, h⟩))))))

theorem flushRun_eq_chain (p : Params) (f : VFile) (w : AwsWorld)
    (hf : p.file = some f) (hz : jsSliceLast 4 f.path = ".zip") :
    flushRun p w = { trace := (deployChain p f w).1,
                     result := (deployChain p f w).2,
                     pushes := if (deployChain p f w).2.isOk then 1 else 0 } := by
  unfold flushRun
  rw [hf]
  simp only [hz, ne_eq, not_true_eq_false, if_false]
  rcases h : deployChain p f w with ⟨t, r⟩
  rcases r with e | u <;> simp [Except.isOk, Except.toBool]

theorem countKind_append (k : OpKind) (t1 t2 : List ApiCall) :
    countKind k (t1 ++ t2) = countKind k t1 + countKind k t2 := by
  simp [countKind, List.count_append]

theorem countKind_le_one (p : Params) (f : VFile) (w : AwsWorld) (k : OpKind) :
    countKind k (deployChain p f w).1 ≤ 1 := by
  have h := (deployChain_kinds p f w).count_le k
  have h1 : kindOrder.count k ≤ 1 := by cases k <;> decide
  exact le_trans h h1

theorem aliasChain_countKind_zero (p : Params) (v : Option String) (w : AwsWorld)
    (k : OpKind) (hk : k ≠ OpKind.getAlias ∧ k ≠ OpKind.createAlias ∧ k ≠ OpKind.updateAlias) :
    countKind k (aliasChain p v w).1 = 0 := by
  have h := (aliasChain_kinds p v w).count_le k
  have h0 : ([OpKind.getAlias, OpKind.createAlias, OpKind.updateAlias].count k) = 0 := by
    rcases hk with ⟨h1, h2, h3⟩
    cases k <;> simp_all
  rw [h0] at h
  exact Nat.le_zero.mp h

theorem updatePath_counts (p : Params) (f : VFile) (w : AwsWorld) :
    countKind .createFunction (updatePath p f w).1 = 0 ∧
    countKind .updateFunctionCode (updatePath p f w).1 = 1 ∧
    (w.updateFunctionCodeRes.isOk = true → w.waitForRes.isOk = true →
      countKind .updateFunctionConfiguration (updatePath p f w).1 = 1) := by
  rcases h1 : w.updateFunctionCodeRes with e | c1
  · simp [updatePath, h1, countKind, kindOf, Except.isOk, Except.toBool]
  rcases h2 : w.waitForRes with e | u
  · simp [updatePath, h1, h2, countKind, kindOf, Except.isOk, Except.toBool]
  rcases h3 : w.updateFunctionConfigurationRes with e | cfg
  · simp [updatePath, h1, h2, h3, countKind, kindOf, Except.isOk, Except.toBool]
  · have hcr := aliasChain_countKind_zero p cfg.Version w .createFunction (by decide)
    have hco := aliasChain_countKind_zero p cfg.Version w .updateFunctionCode (by decide)
    have hcf := aliasChain_countKind_zero p cfg.Version w .updateFunctionConfiguration (by decide)
    simp only [countKind] at hcr hco hcf
    simp only [updatePath, h1, h2, h3]
    refine ⟨?_, ?_, fun _ _ => ?_⟩ <;>
      simp [countKind_append, hcr, hco, hcf, countKind, kindOf]

theorem createPath_counts (p : Params) (f : VFile) (w : AwsWorld) :
    countKind .createFunction (createPath p f w).1 = 1 ∧
    countKind .updateFunctionCode (createPath p f w).1 = 0 ∧
    countKind .updateFunctionConfiguration (createPath p f w).1 = 0 := by
  rcases h : w.createFunctionRes with e | cfg
  · simp [createPath, h, countKind, kindOf]
  · have hcr := aliasChain_countKind_zero p cfg.Version w .createFunction (by decide)
    have hco := aliasChain_countKind_zero p cfg.Version w .updateFunctionCode (by decide)
    have hcf := aliasChain_countKind_zero p cfg.Version w .updateFunctionConfiguration (by decide)
    simp only [countKind] at hcr hco hcf
    simp only [createPath, h]
    refine ⟨?_, ?_, ?_⟩ <;>
      simp [countKind, kindOf, hcr, hco, hcf]

theorem deployChain_countKind_eq_checkPath (p : Params) (f : VFile) (w : AwsWorld)
    (hs3 : p.s3 = none ∨ w.putObjectRes = Except.ok ()) (k : OpKind)
    (hk : k ≠ OpKind.putObject) :
    countKind k (deployChain p f w).1 = countKind k (checkPath p f w).1 := by
  rcases hs : p.s3 with _ | s
  · simp [deployChain, hs]
  · rcases hs3 with h | h
    · rw [h] at hs; cases hs
    · simp [deployChain, hs, h, countKind, kindOf, List.count_cons, hk]

theorem checkPath_counts (p : Params) (f : VFile) (w : AwsWorld) (fns : List FnEntry)
    (hl : w.listFunctionsRes = Except.ok fns) :
    (hasLambdaFunction fns p.functionName = true →
      countKind .updateFunctionCode (checkPath p f w).1 = 1 ∧
      countKind .createFunction (checkPath p f w).1 = 0 ∧
      (w.updateFunctionCodeRes.isOk = true → w.waitForRes.isOk = true →
        countKind .updateFunctionConfiguration (checkPath p f w).1 = 1)) ∧
    (hasLambdaFunction fns p.functionName = false →
      countKind .createFunction (checkPath p f w).1 = 1 ∧
      countKind .updateFunctionCode (checkPath p f w).1 = 0 ∧
      countKind .updateFunctionConfiguration (checkPath p f w).1 = 0) := by
  constructor
  · intro hh
    have hu := updatePath_counts p f w
    simp only [checkPath, hl, hh, if_true]
    simp only [countKind, List.map_cons, List.count_cons, kindOf] at hu ⊢
    exact ⟨by simp [hu.2.1], by simp [hu.1], fun ha hb => by simp [hu.2.2 ha hb]⟩
  · intro hh
    have hc := createPath_counts p f w
    simp only [checkPath, hl, hh, Bool.false_eq_true, if_false]
    simp only [countKind, List.map_cons, List.count_cons, kindOf] at hc ⊢
    exact ⟨by simp [hc.1], by simp [hc.2.1], by simp [hc.2.2]⟩

/-- Claim C1: in a flush run that reaches the existence check (a zip file
was buffered, and the S3 step, when present, resolved), with the
`listFunctions` response resolving to `fns`: `hasLambdaFunction` is true
iff some entry of `fns` has `FunctionName` equal to the target; when true
the run issues `updateFunctionCode` (and, once code and wait resolve,
`updateFunctionConfiguration`) and never `createFunction`; when false it
issues `createFunction` and neither update call. -/
theorem claim1_create_exactly_when_absent (p : Params) (f : VFile) (w : AwsWorld)
    (fns : List FnEntry)
    (hf : p.file = some f) (hz : jsSliceLast 4 f.path = ".zip")
    (hs3 : p.s3 = none ∨ w.putObjectRes = Except.ok ())
    (hl : w.listFunctionsRes = Except.ok fns) :
    (hasLambdaFunction fns p.functionName = true ↔
      ∃ en ∈ fns, en.FunctionName = p.functionName) ∧
    (hasLambdaFunction fns p.functionName = true →
      countKind .updateFunctionCode (flushRun p w).trace = 1 ∧
      countKind .createFunction (flushRun p w).trace = 0 ∧
      (w.updateFunctionCodeRes.isOk = true → w.waitForRes.isOk = true →
        countKind .updateFunctionConfiguration (flushRun p w).trace = 1)) ∧
    (hasLambdaFunction fns p.functionName = false →
      countKind .createFunction (flushRun p w).trace = 1 ∧
      countKind .updateFunctionCode (flushRun p w).trace = 0 ∧
      countKind .updateFunctionConfiguration (flushRun p w).trace = 0) := by
  have htr : (flushRun p w).trace = (deployChain p f w).1 := by
    rw [flushRun_eq_chain p f w hf hz]
  have hck := checkPath_counts p f w fns hl
  have heq1 := deployChain_countKind_eq_checkPath p f w hs3 .updateFunctionCode (by decide)
  have heq2 := deployChain_countKind_eq_checkPath p f w hs3 .createFunction (by decide)
  have heq3 := deployChain_countKind_eq_checkPath p f w hs3 .updateFunctionConfiguration (by decide)
  refine ⟨?_, ?_, ?_⟩
  · simp [hasLambdaFunction, List.any_eq_true, beq_iff_eq]
  · intro hh
    rcases hck.1 hh with ⟨h1, h2, h3⟩
    exact ⟨by rw [htr, heq1, h1], by rw [htr, heq2, h2],
      fun ha hb => by rw [htr, heq3, h3 ha hb]⟩
  · intro hh
    rcases hck.2 hh with ⟨h1, h2, h3⟩
    exact ⟨by rw [htr, heq2, h1], by rw [htr, heq1, h2], by rw [htr, heq3, h3]⟩

theorem aliasChain_trace_eq (p : Params) (v : Option String) (w : AwsWorld) :
    (aliasChain p v w).1 =
      if truthyS p.aliasName then
        match w.getAliasRes with
        | .error _ => [.getAlias (getAliasReq p)]
        | .ok none => [.getAlias (getAliasReq p), .createAlias (aliasReq p v)]
        | .ok (some _) => [.getAlias (getAliasReq p), .updateAlias (aliasReq p v)]
      else [] := by
  by_cases ha : truthyS p.aliasName = true
  · rcases hg : w.getAliasRes with e | a
    · simp [aliasChain, ha, hg]
    · rcases a with _ | av
      · rcases hc : w.createAliasRes with e | u <;> simp [aliasChain, ha, hg, hc]
      · rcases hu : w.updateAliasRes with e | u <;> simp [aliasChain, ha, hg, hu]
  · simp [aliasChain, ha]

theorem flushRun_dropLast_ok (p : Params) (w : AwsWorld) :
    ∀ c ∈ (flushRun p w).trace.dropLast, respOk w (kindOf c) = true := by
  rcases hf : p.file with _ | f
  · simp [flushRun, hf]
  by_cases hz : jsSliceLast 4 f.path = ".zip"
  · rw [flushRun_eq_chain p f w hf hz]
    have hwf := deployChain_wf p f w
    rcases hr : (deployChain p f w).2 with e | u
    · intro c hc
      exact (hwf.2 e hr).2 c hc
    · intro c hc
      have hok : (deployChain p f w).2 = Except.ok () := by cases u; exact hr
      exact hwf.1 hok c ((List.dropLast_sublist _).subset hc)
  · simp only [flushRun, hf]
    rw [if_pos (by simpa using hz)]
    simp

/-- Claim C2: in a flush run where the target function exists and every
step resolves, the deploy steps appear in the trace in the fixed order:
S3 upload (only when `params.s3` is given), the `listFunctions` check,
`updateFunctionCode`, `waitFor('functionUpdated')`,
`updateFunctionConfiguration`, then the alias upsert (only when
`params.alias` is given); and in any run each issued call except the
last had its response resolve before the next call was issued. -/
theorem claim2_update_branch_order (p : Params) (f : VFile) (w : AwsWorld)
    (fns : List FnEntry) (ga : Option AliasConfigResp)
    (hf : p.file = some f) (hz : jsSliceLast 4 f.path = ".zip")
    (hl : w.listFunctionsRes = Except.ok fns)
    (hh : hasLambdaFunction fns p.functionName = true)
    (hp : w.putObjectRes = Except.ok ())
    (h1 : w.updateFunctionCodeRes.isOk = true)
    (h2 : w.waitForRes.isOk = true)
    (h3 : w.updateFunctionConfigurationRes.isOk = true)
    (hg : w.getAliasRes = Except.ok ga) :
    ((flushRun p w).trace.map kindOf =
      (if p.s3.isSome then [OpKind.putObject] else []) ++
      [OpKind.listFunctions, OpKind.updateFunctionCode, OpKind.waitForFunctionUpdated,
       OpKind.updateFunctionConfiguration] ++
      (if truthyS p.aliasName then
        [OpKind.getAlias,
         (match ga with | none => OpKind.createAlias | some _ => OpKind.updateAlias)]
       else [])) ∧
    (∀ w2 : AwsWorld, ∀ c ∈ (flushRun p w2).trace.dropLast, respOk w2 (kindOf c) = true) := by
  refine ⟨?_, fun w2 => flushRun_dropLast_ok p w2⟩
  rcases hc1 : w.updateFunctionCodeRes with e | c1
  · rw [hc1] at h1; simp [Except.isOk, Except.toBool] at h1
  rcases hc2 : w.waitForRes with e | uu
  · rw [hc2] at h2; simp [Except.isOk, Except.toBool] at h2
  rcases hc3 : w.updateFunctionConfigurationRes with e | cfg
  · rw [hc3] at h3; simp [Except.isOk, Except.toBool] at h3
  rw [flushRun_eq_chain p f w hf hz]
  rcases hs : p.s3 with _ | s <;>
    by_cases ha : truthyS p.aliasName = true <;>
      rcases ga with _ | a <;>
        simp [deployChain, checkPath, updatePath, aliasChain_trace_eq, hs, hp, hl, hh,
          hc1, hc2, hc3, hg, ha, kindOf]

theorem deployChain_alias_decomp (p : Params) (f : VFile) (w : AwsWorld)
    (fns : List FnEntry) (cfg : FnConfigResp)
    (hs3 : p.s3 = none ∨ w.putObjectRes = Except.ok ())
    (hl : w.listFunctionsRes = Except.ok fns)
    (hres : (hasLambdaFunction fns p.functionName = true ∧
             w.updateFunctionCodeRes.isOk = true ∧ w.waitForRes.isOk = true ∧
             w.updateFunctionConfigurationRes = Except.ok cfg) ∨
            (hasLambdaFunction fns p.functionName = false ∧
             w.createFunctionRes = Except.ok cfg)) :
    ∃ pre, (deployChain p f w).1 = pre ++ (aliasChain p cfg.Version w).1 ∧
      countKind .createAlias pre = 0 ∧ countKind .updateAlias pre = 0 := by
  rcases hres with ⟨hh, h1, h2, h3⟩ | ⟨hh, hcf⟩
  · rcases hc1 : w.updateFunctionCodeRes with e | c1
    · rw [hc1] at h1; simp [Except.isOk, Except.toBool] at h1
    rcases hc2 : w.waitForRes with e | uu
    · rw [hc2] at h2; simp [Except.isOk, Except.toBool] at h2
    rcases hs : p.s3 with _ | s
    · refine ⟨[.listFunctions, .updateFunctionCode (updateFunctionCodeReq p f),
        .waitForFunctionUpdated p.functionName,
        .updateFunctionConfiguration (updateFunctionConfigurationReq p)],
        ?_, by simp [countKind, kindOf], by simp [countKind, kindOf]⟩
      simp [deployChain, checkPath, updatePath, hs, hl, hh, hc1, hc2, h3]
    · rcases hs3 with hx | hx
      · rw [hx] at hs; cases hs
      refine ⟨[.putObject (s3uploadReq s f), .listFunctions,
        .updateFunctionCode (updateFunctionCodeReq p f),
        .waitForFunctionUpdated p.functionName,
        .updateFunctionConfiguration (updateFunctionConfigurationReq p)],
        ?_, by simp [countKind, kindOf], by simp [countKind, kindOf]⟩
      simp [deployChain, checkPath, updatePath, hs, hx, hl, hh, hc1, hc2, h3]
  · rcases hs : p.s3 with _ | s
    · refine ⟨[.listFunctions, .createFunction (createFunctionReq p f)],
        ?_, by simp [countKind, kindOf], by simp [countKind, kindOf]⟩
      simp [deployChain, checkPath, createPath, hs, hl, hh, hcf]
    · rcases hs3 with hx | hx
      · rw [hx] at hs; cases hs
      refine ⟨[.putObject (s3uploadReq s f), .listFunctions,
        .createFunction (createFunctionReq p f)],
        ?_, by simp [countKind, kindOf], by simp [countKind, kindOf]⟩
      simp [deployChain, checkPath, createPath, hs, hx, hl, hh, hcf]

theorem aliasUpsert_conclusions (p : Params) (w : AwsWorld) (v : Option String)
    (pre : List ApiCall) (ha : truthyS p.aliasName = true)
    (hca : countKind .createAlias pre = 0) (hua : countKind .updateAlias pre = 0) :
    (ApiCall.getAlias (getAliasReq p) ∈ pre ++ (aliasChain p v w).1) ∧
    (w.getAliasRes = Except.ok none →
      ApiCall.createAlias (aliasReq p v) ∈ pre ++ (aliasChain p v w).1 ∧
      countKind .updateAlias (pre ++ (aliasChain p v w).1) = 0) ∧
    (∀ a, w.getAliasRes = Except.ok (some a) →
      ApiCall.updateAlias (aliasReq p v) ∈ pre ++ (aliasChain p v w).1 ∧
      countKind .createAlias (pre ++ (aliasChain p v w).1) = 0) := by
  rw [aliasChain_trace_eq p v w, if_pos ha]
  rcases hg : w.getAliasRes with e | a
  · refine ⟨by simp, fun hx => ?_, fun a hx => ?_⟩ <;> cases hx
  rcases a with _ | av
  · refine ⟨by simp, fun _ => ⟨by simp, ?_⟩, fun a hx => ?_⟩
    · rw [countKind_append, hua]
      simp [countKind, kindOf]
    · cases hx
  · refine ⟨by simp, fun hx => ?_, fun a _ => ⟨by simp, ?_⟩⟩
    · cases hx
    · rw [countKind_append, hca]
      simp [countKind, kindOf]

/-- Claim C3: in a flush run with `params.alias` truthy whose
create-or-update step resolved with value `cfg`, the plugin consults
`getAlias`; when it yields no existing alias it issues `createAlias`,
otherwise `updateAlias`, in both cases with `FunctionVersion` equal to
`cfg.Version`, the `Version` field of the value the immediately
preceding create-or-update step resolved with. -/
theorem claim3_alias_upsert (p : Params) (f : VFile) (w : AwsWorld)
    (fns : List FnEntry) (cfg : FnConfigResp)
    (hf : p.file = some f) (hz : jsSliceLast 4 f.path = ".zip")
    (hs3 : p.s3 = none ∨ w.putObjectRes = Except.ok ())
    (hl : w.listFunctionsRes = Except.ok fns)
    (ha : truthyS p.aliasName = true)
    (hres : (hasLambdaFunction fns p.functionName = true ∧
             w.updateFunctionCodeRes.isOk = true ∧ w.waitForRes.isOk = true ∧
             w.updateFunctionConfigurationRes = Except.ok cfg) ∨
            (hasLambdaFunction fns p.functionName = false ∧
             w.createFunctionRes = Except.ok cfg)) :
    (ApiCall.getAlias (getAliasReq p) ∈ (flushRun p w).trace) ∧
    (w.getAliasRes = Except.ok none →
      ApiCall.createAlias (aliasReq p cfg.Version) ∈ (flushRun p w).trace ∧
      countKind .updateAlias (flushRun p w).trace = 0) ∧
    (∀ a, w.getAliasRes = Except.ok (some a) →
      ApiCall.updateAlias (aliasReq p cfg.Version) ∈ (flushRun p w).trace ∧
      countKind .createAlias (flushRun p w).trace = 0) := by
  have htr : (flushRun p w).trace = (deployChain p f w).1 := by
    rw [flushRun_eq_chain p f w hf hz]
  rcases deployChain_alias_decomp p f w fns cfg hs3 hl hres with ⟨pre, hpre, hca, hua⟩
  rw [htr, hpre]
  exact aliasUpsert_conclusions p w cfg.Version pre ha hca hua

theorem checkPath_putObject_count (p : Params) (f : VFile) (w : AwsWorld) :
    countKind .putObject (checkPath p f w).1 = 0 := by
  have h := (checkPath_kinds p f w).count_le OpKind.putObject
  have h0 : List.count OpKind.putObject [OpKind.listFunctions, OpKind.updateFunctionCode,
      OpKind.waitForFunctionUpdated, OpKind.updateFunctionConfiguration, OpKind.createFunction,
      OpKind.getAlias, OpKind.createAlias, OpKind.updateAlias] = 0 := by decide
  rw [h0] at h
  exact Nat.le_zero.mp h

theorem flushRun_mem (p : Params) (w : AwsWorld) (c : ApiCall)
    (hc : c ∈ (flushRun p w).trace) :
    ∃ f, p.file = some f ∧
      ((∃ s, p.s3 = some s ∧ c = .putObject (s3uploadReq s f)) ∨
       c = .listFunctions ∨
       c = .updateFunctionCode (updateFunctionCodeReq p f) ∨
       c = .waitForFunctionUpdated p.functionName ∨
       c = .updateFunctionConfiguration (updateFunctionConfigurationReq p) ∨
       c = .createFunction (createFunctionReq p f) ∨
       c = .getAlias (getAliasReq p) ∨
       (∃ v, c = .createAlias (aliasReq p v) ∨ c = .updateAlias (aliasReq p v))) := by
  rcases hf : p.file with _ | f
  · simp [flushRun, hf] at hc
  by_cases hz : jsSliceLast 4 f.path = ".zip"
  · rw [flushRun_eq_chain p f w hf hz] at hc
    exact ⟨f, rfl, deployChain_mem p f w c hc⟩
  · simp only [flushRun, hf] at hc
    rw [if_pos (by simpa using hz)] at hc
    simp at hc

/-- Claim C4: in a flush run of a buffered zip with `params.s3` present,
`putObject` is the first issued call, carries `Bucket`/`Key` from
`params.s3` and `Body` from the file, and is issued exactly once, before
any Lambda call; `updateFunctionCode` and `createFunction` requests then
carry the S3 location and no `ZipFile`. Without `params.s3` no S3 call
is issued and both code-carrying requests inline the file as `ZipFile`. -/
theorem claim4_code_transport (p : Params) (f : VFile) (w : AwsWorld)
    (hf : p.file = some f) (hz : jsSliceLast 4 f.path = ".zip") :
    (∀ s, p.s3 = some s →
      (∃ rest, (flushRun p w).trace = .putObject (s3uploadReq s f) :: rest ∧
        countKind .putObject rest = 0) ∧
      (∀ req, ApiCall.updateFunctionCode req ∈ (flushRun p w).trace →
        req.S3Bucket = s.bucket ∧ req.S3Key = s.key ∧ req.ZipFile = none) ∧
      (∀ req, ApiCall.createFunction req ∈ (flushRun p w).trace →
        req.Code = { S3Bucket := s.bucket, S3Key := s.key, ZipFile := none })) ∧
    (p.s3 = none →
      countKind .putObject (flushRun p w).trace = 0 ∧
      (∀ req, ApiCall.updateFunctionCode req ∈ (flushRun p w).trace →
        req.ZipFile = some f.contents ∧ req.S3Bucket = none ∧ req.S3Key = none) ∧
      (∀ req, ApiCall.createFunction req ∈ (flushRun p w).trace →
        req.Code = { S3Bucket := none, S3Key := none, ZipFile := some f.contents })) := by
  have htr : (flushRun p w).trace = (deployChain p f w).1 := by
    rw [flushRun_eq_chain p f w hf hz]
  constructor
  · intro s hs
    refine ⟨?_, ?_, ?_⟩
    · rw [htr]
      rcases hp : w.putObjectRes with e | u
      · exact ⟨[], by simp [deployChain, hs, hp], rfl⟩
      · exact ⟨(checkPath p f w).1, by simp [deployChain, hs, hp],
          checkPath_putObject_count p f w⟩
    · intro req hreq
      rcases flushRun_mem p w _ hreq with ⟨f2, hf2, h⟩
      rw [hf] at hf2
      cases hf2
      rcases h with ⟨s2, hs2, h⟩ | h | h | h | h | h | h | ⟨v, h | h⟩ <;> cases h <;>
        simp [updateFunctionCodeReq, hs]
    · intro req hreq
      rcases flushRun_mem p w _ hreq with ⟨f2, hf2, h⟩
      rw [hf] at hf2
      cases hf2
      rcases h with ⟨s2, hs2, h⟩ | h | h | h | h | h | h | ⟨v, h | h⟩ <;> cases h <;>
        simp [createFunctionReq, hs]
  · intro hs
    refine ⟨?_, ?_, ?_⟩
    · rw [htr]
      simp only [deployChain, hs]
      exact checkPath_putObject_count p f w
    · intro req hreq
      rcases flushRun_mem p w _ hreq with ⟨f2, hf2, h⟩
      rw [hf] at hf2
      cases hf2
      rcases h with ⟨s2, hs2, h⟩ | h | h | h | h | h | h | ⟨v, h | h⟩ <;> cases h <;>
        simp [updateFunctionCodeReq, hs]
    · intro req hreq
      rcases flushRun_mem p w _ hreq with ⟨f2, hf2, h⟩
      rw [hf] at hf2
      cases hf2
      rcases h with ⟨s2, hs2, h⟩ | h | h | h | h | h | h | ⟨v, h | h⟩ <;> cases h <;>
        simp [createFunctionReq, hs]

/-- Claim C5: every call in a flush run's trace carries a `Publish` flag
exactly when it is the `updateFunctionCode` or `createFunction` request,
and that flag equals `params.publish`; in particular the
`updateFunctionConfiguration` request carries no `Publish` field. -/
theorem claim5_publish_flag (p : Params) (w : AwsWorld) (c : ApiCall)
    (hc : c ∈ (flushRun p w).trace) :
    ((kindOf c = .updateFunctionCode ∨ kindOf c = .createFunction) →
      publishOf c = some p.publish) ∧
    (kindOf c ≠ .updateFunctionCode → kindOf c ≠ .createFunction →
      publishOf c = none) := by
  rcases flushRun_mem p w c hc with ⟨f, hf, h⟩
  rcases h with ⟨s, hs, h⟩ | h | h | h | h | h | h | ⟨v, h | h⟩ <;> subst h <;>
    constructor <;>
      simp [publishOf, kindOf, updateFunctionCodeReq, createFunctionReq]

theorem jsSliceLast_zip_iff (s : String) :
    (jsSliceLast 4 s = ".zip") ↔ List.IsSuffix ".zip".data s.data := by
  rw [List.suffix_iff_eq_drop]
  have hlen : ".zip".data.length = 4 := rfl
  rw [hlen]
  constructor
  · intro h
    exact (congrArg String.data h).symm
  · intro h
    exact congrArg String.mk h.symm

/-- Claim C6: a flush run with no buffered file fails with
`No code provided`, and one whose file path does not end in `.zip` fails
with `Given file is not a zip`; in both cases no API call is issued
(empty trace) and nothing is pushed. -/
theorem claim6_input_guards (p : Params) (w : AwsWorld) :
    (p.file = none →
      flushRun p w = { trace := [], result := .error "No code provided", pushes := 0 }) ∧
    (∀ f, p.file = some f → ¬ List.IsSuffix ".zip".data f.path.data →
      flushRun p w =
        { trace := [], result := .error "Given file is not a zip", pushes := 0 }) := by
  constructor
  · intro hf
    simp [flushRun, hf]
  · intro f hf hsuf
    have hz : jsSliceLast 4 f.path ≠ ".zip" := fun h => hsuf ((jsSliceLast_zip_iff f.path).mp h)
    simp [flushRun, hf, hz]

/-- Claim C7: in every flush run each vendor operation kind is issued at
most once, and every issued call except possibly the last had its
response resolve — a rejected step is never retried and stops all
remaining steps. -/
theorem claim7_no_retry (p : Params) (w : AwsWorld) :
    (∀ k, countKind k (flushRun p w).trace ≤ 1) ∧
    (∀ c ∈ (flushRun p w).trace.dropLast, respOk w (kindOf c) = true) := by
  refine ⟨?_, flushRun_dropLast_ok p w⟩
  intro k
  rcases hf : p.file with _ | f
  · simp [flushRun, hf, countKind]
  by_cases hz : jsSliceLast 4 f.path = ".zip"
  · rw [flushRun_eq_chain p f w hf hz]
    exact countKind_le_one p f w k
  · simp only [flushRun, hf]
    rw [if_pos (by simpa using hz)]
    simp [countKind]

/-- Claim C9: in a flush run of a buffered zip, the file is pushed
downstream exactly once when the deploy chain resolves, never when it
rejects, and on rejection the stream callback receives the failing
step's error message. -/
theorem claim9_push_and_error (p : Params) (f : VFile) (w : AwsWorld)
    (hf : p.file = some f) (hz : jsSliceLast 4 f.path = ".zip") :
    ((deployChain p f w).2 = Except.ok () →
      (flushRun p w).pushes = 1 ∧ (flushRun p w).result = Except.ok ()) ∧
    (∀ e, (deployChain p f w).2 = Except.error e →
      (flushRun p w).pushes = 0 ∧ (flushRun p w).result = Except.error e) := by
  rw [flushRun_eq_chain p f w hf hz]
  constructor
  · intro h
    simp [h, Except.isOk, Except.toBool]
  · intro e h
    simp [h, Except.isOk, Except.toBool]

/-- Claim C10: `createFunction` and `updateFunctionConfiguration` build
the same `VpcConfig`: present exactly when both `params.subnets` and
`params.securityGroups` are truthy (with a bare string wrapped into a
one-element array), and silently omitted otherwise, in particular when
only one of the two is provided. -/
theorem claim10_vpc_config (p : Params) (f : VFile) :
    (createFunctionReq p f).VpcConfig = (updateFunctionConfigurationReq p).VpcConfig ∧
    (if truthySL p.subnets && truthySL p.securityGroups then
      (updateFunctionConfigurationReq p).VpcConfig =
        some { SubnetIds := toStrList p.subnets,
               SecurityGroupIds := toStrList p.securityGroups }
     else (updateFunctionConfigurationReq p).VpcConfig = none) ∧
    (∀ s, toStrList (some (.str s)) = [s]) ∧
    (∀ l, toStrList (some (.arr l)) = l) := by
  refine ⟨rfl, ?_, fun s => rfl, fun l => rfl⟩
  by_cases h : (truthySL p.subnets && truthySL p.securityGroups) = true
  · simp [updateFunctionConfigurationReq, mkVpcConfig, h]
  · simp [updateFunctionConfigurationReq, mkVpcConfig, h]

/-- Claim C8 as stated fails on the code: with `functionName` present
but empty (`some ""`), `main` throws `No Lambda function name provided`
although every condition the claim enumerates (absence of fields, s3
without bucket/key, alias set with falsy publish) is false. -/
theorem claim8_counterexample :
    mainEntry (some emptyNameParams) (some sampleOptions) =
      Except.error "No Lambda function name provided" ∧
    claimC8cond (some emptyNameParams) (some sampleOptions) = false := by
  constructor <;> rfl

/-- Claim C8 (amended): `main(params, options)` throws synchronously iff
one of the checked values is falsy in the JavaScript sense — absent or
empty for the required strings, `params.s3` present with falsy `bucket`
or `key`, or `params.alias` truthy while `params.publish` is falsy;
otherwise it returns the stream without throwing. -/
theorem claim8_throw_iff (params : Option Params) (options : Option AwsOptions) :
    (mainEntry params options = Except.ok ()) ↔
      (mainThrowCond params options = false) := by
  rcases params with _ | p
  · simp [mainEntry, mainThrowCond]
  rcases options with _ | o
  · cases h1 : truthyS p.functionName <;> cases h2 : truthyS p.role <;>
      simp [mainEntry, mainThrowCond, h1, h2]
  rcases hs : p.s3 with _ | s
  · cases h1 : truthyS p.functionName <;> cases h2 : truthyS p.role <;>
      cases h3 : truthyS o.region <;> cases h4 : truthyS o.profile <;>
        cases h7 : (truthyS p.aliasName && !truthyB p.publish) <;>
          simp [mainEntry, mainThrowCond, hs, h1, h2, h3, h4, h7]
  · cases h1 : truthyS p.functionName <;> cases h2 : truthyS p.role <;>
      cases h3 : truthyS o.region <;> cases h4 : truthyS o.profile <;>
        cases h5 : truthyS s.bucket <;> cases h6 : truthyS s.key <;>
          cases h7 : (truthyS p.aliasName && !truthyB p.publish) <;>
            simp [mainEntry, mainThrowCond, hs, h1, h2, h3, h4, h5, h6, h7]

theorem claim1_witness :
    countKind .updateFunctionCode (flushRun sampleParams sampleWorld).trace = 1 ∧
    countKind .createFunction (flushRun sampleParams sampleWorld).trace = 0 := by
  have h := claim1_create_exactly_when_absent sampleParams sampleFile sampleWorld
    [{ FunctionName := some "fn" }, { FunctionName := some "other" }]
    rfl (by decide) (Or.inr rfl) rfl
  exact ⟨(h.2.1 (by decide)).1, (h.2.1 (by decide)).2.1⟩

theorem claim2_witness :
    (flushRun sampleParams sampleWorld).trace.map kindOf =
      [OpKind.putObject, OpKind.listFunctions, OpKind.updateFunctionCode,
       OpKind.waitForFunctionUpdated, OpKind.updateFunctionConfiguration,
       OpKind.getAlias, OpKind.createAlias] := by
  have h := (claim2_update_branch_order sampleParams sampleFile sampleWorld
    [{ FunctionName := some "fn" }, { FunctionName := some "other" }] none
    rfl (by decide) rfl (by decide) rfl rfl rfl rfl rfl).1
  simpa using h

theorem claim3_witness :
    ApiCall.getAlias (getAliasReq sampleParams) ∈ (flushRun sampleParams sampleWorld).trace ∧
    ApiCall.createAlias (aliasReq sampleParams (some "8")) ∈
      (flushRun sampleParams sampleWorld).trace := by
  have h := claim3_alias_upsert sampleParams sampleFile sampleWorld
    [{ FunctionName := some "fn" }, { FunctionName := some "other" }] { Version := some "8" }
    rfl (by decide) (Or.inr rfl) rfl (by decide)
    (Or.inl ⟨by decide, rfl, rfl, rfl⟩)
  exact ⟨h.1, (h.2.1 rfl).1⟩

theorem claim4_witness :
    ∃ rest, (flushRun sampleParams sampleWorld).trace =
      .putObject (s3uploadReq { bucket := some "bkt", key := some "k" } sampleFile) :: rest ∧
      countKind .putObject rest = 0 := by
  have h := claim4_code_transport sampleParams sampleFile sampleWorld rfl (by decide)
  exact (h.1 { bucket := some "bkt", key := some "k" } rfl).1

theorem claim5_witness :
    publishOf ApiCall.listFunctions = none ∧
    publishOf (ApiCall.updateFunctionCode (updateFunctionCodeReq sampleParams sampleFile)) =
      some sampleParams.publish := by
  have h1 := claim5_publish_flag sampleParams sampleWorld ApiCall.listFunctions (by decide)
  have h2 := claim5_publish_flag sampleParams sampleWorld
    (ApiCall.updateFunctionCode (updateFunctionCodeReq sampleParams sampleFile)) (by decide)
  exact ⟨h1.2 (by decide) (by decide), h2.1 (Or.inl rfl)⟩

theorem claim6_witness :
    flushRun noFileParams sampleWorld =
      { trace := [], result := .error "No code provided", pushes := 0 } ∧
    flushRun badFileParams sampleWorld =
      { trace := [], result := .error "Given file is not a zip", pushes := 0 } := by
  refine ⟨(claim6_input_guards noFileParams sampleWorld).1 rfl,
    (claim6_input_guards badFileParams sampleWorld).2
      { path := "index.txt", contents := "zipbytes" } rfl ?_⟩
  decide

theorem claim7_witness :
    countKind OpKind.putObject (flushRun sampleParams sampleWorld).trace ≤ 1 ∧
    respOk sampleWorld (kindOf ApiCall.listFunctions) = true := by
  have h := claim7_no_retry sampleParams sampleWorld
  exact ⟨h.1 OpKind.putObject, h.2 ApiCall.listFunctions (by decide)⟩

theorem claim9_witness :
    (flushRun sampleParams sampleWorld).pushes = 1 ∧
    (flushRun sampleParams sampleWorldErr).pushes = 0 ∧
    (flushRun sampleParams sampleWorldErr).result = Except.error "boom" := by
  have h1 := (claim9_push_and_error sampleParams sampleFile sampleWorld rfl (by decide)).1
    (by decide)
  have h2 := (claim9_push_and_error sampleParams sampleFile sampleWorldErr rfl (by decide)).2
    "boom" (by decide)
  exact ⟨h1.1, h2.1, h2.2⟩

theorem claim10_witness :
    (createFunctionReq sampleParams sampleFile).VpcConfig =
      (updateFunctionConfigurationReq sampleParams).VpcConfig ∧
    (updateFunctionConfigurationReq sampleParams).VpcConfig =
      some { SubnetIds := ["sub-1"], SecurityGroupIds := ["sg-1", "sg-2"] } := by
  have h := claim10_vpc_config sampleParams sampleFile
  refine ⟨h.1, ?_⟩
  have h2 := h.2.1
  simpa using h2

theorem claim8_theorem_witness :
    (mainEntry (some sampleParams) (some sampleOptions) = Except.ok ()) ↔
      (mainThrowCond (some sampleParams) (some sampleOptions) = false) :=
  claim8_throw_iff (some sampleParams) (some sampleOptions)
